import Mathlib

/-!
Verification of the manifest-vs-filesystem reconciliation core of the
qbittorrent-migrator tool (src/unnamed/part_000, lines 15-383).

The filesystem is modelled as an abstract map from absolute path strings to
nodes (regular file with a size, or directory with a stat size); `fs.statSync`
on a missing path, which throws in the source, is modelled as `none`.
JavaScript floating-point numbers only ever hold the exact small decimal
constants and ratios of the scoring formulas here, so they are modelled as
exact rationals (`ℚ`).  `path.join` is modelled as separator concatenation,
which is adequate because the filesystem model is an abstract map keyed by
path strings.  The free-form diagnostic strings pushed into the `debug`
arrays are reproduced structurally (same events, same order, slightly
abbreviated text where the source interpolates floats); every function that
mutates the shared `debug` array in the source instead takes the current log
and returns the extended one.
-/

namespace QbtMigrator

/-- A filesystem node: a regular file or a directory.  `stat` reports a size
for both (a directory's size is whatever the platform reports). -/
inductive FSNode where
  | file (size : Nat)
  | dir (size : Nat)
deriving DecidableEq, Repr

/-- Abstract filesystem state: which node, if any, lives at each path. -/
def FS : Type := String → Option FSNode

/-- `stat.size`. -/
def FSNode.size : FSNode → Nat
  | .file s => s
  | .dir s => s

/-- `stat.isFile()`. -/
def FSNode.isFile : FSNode → Bool
  | .file _ => true
  | .dir _ => false

/-- `stat.isDirectory()`. -/
def FSNode.isDirectory : FSNode → Bool
  | .file _ => false
  | .dir _ => true

/-- `fs.existsSync(p)`. -/
def existsSync (fs : FS) (p : String) : Bool :=
  (fs p).isSome

/-- `fs.statSync(p)`, with `none` standing for the thrown error on a missing
path. -/
def statSync (fs : FS) (p : String) : Option FSNode :=
  fs p

/-- `path.join(a, b)`. -/
def pathJoin (a b : String) : String :=
  a ++ "/" ++ b

/-- One entry of `torrentData.info.files` (part_000:15-18). -/
structure TorrentFile where
  length : Nat
  path : List String
deriving DecidableEq, Repr

/-- The `info` dictionary of a decoded torrent (part_000:20-28); the piece
data is irrelevant to path reconciliation and omitted. -/
structure TorrentInfo where
  name : String
  files : Option (List TorrentFile)
  length : Option Nat
deriving DecidableEq, Repr

/-- A decoded torrent descriptor (part_000:20-28). -/
structure TorrentData where
  info : TorrentInfo
deriving DecidableEq, Repr

/-- One element of the expected-file list built by `getExpectedFiles`
(part_000:195-217): a `{ path, size }` object. -/
structure ExpectedFile where
  path : String
  size : Nat
deriving DecidableEq, Repr, Inhabited

/-- `FileMatch` (part_000:30-37).  The source field `exists` is a reserved
word in Lean and is rendered `exists'`. -/
structure FileMatch where
  expectedPath : String
  actualPath : String
  exists' : Bool
  expectedSize : Nat
  actualSize : Nat
  sizeMatch : Bool
deriving DecidableEq, Repr

/-- `PathMatchResult` (part_000:39-46). -/
structure PathMatchResult where
  basePath : String
  confidence : ℚ
  matches' : List FileMatch
  totalFiles : Nat
  existingFiles : Nat
  debug : List String
deriving DecidableEq, Repr, Inhabited

/-- `getExpectedFiles` (part_000:195-217).  In the source the single-file
size is `torrentData.info.length || 0`. -/
def getExpectedFiles (torrentData : TorrentData) : List ExpectedFile :=
  match torrentData.info.files with
  | some fl => fl.map (fun f => { path := String.intercalate "/" f.path, size := f.length })
  | none => [{ path := torrentData.info.name, size := torrentData.info.length.getD 0 }]

/-- `validateSingleFile` (part_000:219-266).  `none` in the first component
models the `null` returned when `fs.statSync` throws; the second component is
the debug log after the call.  The source assigns `confidence` inside the
same `if` chain that pushes the per-branch log line; here the score is one
conditional expression and the log line a parallel one. -/
def validateSingleFile (fs : FS) (filePath : String) (expectedFile : ExpectedFile)
    (debug : List String) : Option (ℚ × FileMatch) × List String :=
  let debug := debug ++ ["Validating single file: " ++ filePath]
  match statSync fs filePath with
  | none => (none, debug ++ ["Error validating single file"])
  | some st =>
    let actualSize := st.size
    let expectedSize := expectedFile.size
    let fm : FileMatch :=
      { expectedPath := expectedFile.path
        actualPath := filePath
        exists' := true
        expectedSize := expectedSize
        actualSize := actualSize
        sizeMatch := actualSize == expectedSize }
    let confidence : ℚ :=
      if fm.sizeMatch then 1
      else if actualSize < expectedSize ∧ actualSize > 0 then
        0.5 + ((actualSize : ℚ) / (expectedSize : ℚ)) * 0.3
      else 0.2
    let debug := debug ++
      ["File exists - Expected size: " ++ toString expectedSize ++
        ", Actual size: " ++ toString actualSize] ++
      [if fm.sizeMatch then "Perfect size match"
       else if actualSize < expectedSize ∧ actualSize > 0 then "Incomplete file"
       else "Size mismatch"]
    (some (confidence, fm), debug)

/-- Accumulated state of the entry loop of `validateMultiFileStructure`
(part_000:285-342): the `matches` array and the `existingFiles` and
`perfectMatches` counters, plus the debug lines the loop pushed. -/
structure LoopOut where
  matches' : List FileMatch
  existingFiles : Nat
  perfectMatches : Nat
  log : List String
deriving DecidableEq, Repr

/-- The entry loop of `validateMultiFileStructure` (part_000:295-342).
`i` is the loop index; it is used only by the `i < 5` debug-sampling guards.
A failed `fs.statSync` (the `catch` branch) records
`exists=false, actualSize=0, sizeMatch=false`. -/
def multiFileLoop (fs : FS) (basePath : String) :
    Nat → List ExpectedFile → LoopOut
  | _, [] => { matches' := [], existingFiles := 0, perfectMatches := 0, log := [] }
  | i, e :: rest =>
    let fullPath := pathJoin basePath e.path
    let hdr := if i < 5 then ["Checking file: " ++ e.path ++ " at " ++ fullPath] else []
    match statSync fs fullPath with
    | some st =>
      let actualSize := st.size
      let sizeMatch := actualSize == e.size
      let fm : FileMatch :=
        { expectedPath := e.path
          actualPath := fullPath
          exists' := true
          expectedSize := e.size
          actualSize := actualSize
          sizeMatch := sizeMatch }
      let note := if i < 5 then
          ["File exists - Expected: " ++ toString e.size ++
            ", Actual: " ++ toString actualSize] else []
      let r := multiFileLoop fs basePath (i + 1) rest
      { matches' := fm :: r.matches'
        existingFiles := r.existingFiles + 1
        perfectMatches := if sizeMatch then r.perfectMatches + 1 else r.perfectMatches
        log := hdr ++ note ++ r.log }
    | none =>
      let fm : FileMatch :=
        { expectedPath := e.path
          actualPath := fullPath
          exists' := false
          expectedSize := e.size
          actualSize := 0
          sizeMatch := false }
      let note := if i < 5 then ["File does not exist"] else []
      let r := multiFileLoop fs basePath (i + 1) rest
      { matches' := fm :: r.matches'
        existingFiles := r.existingFiles
        perfectMatches := r.perfectMatches
        log := hdr ++ note ++ r.log }

/-- The confidence computation of `validateMultiFileStructure`
(part_000:348-369), as a function of the two counters and the entry total:
`confidence` starts at 0, and when `existingFiles > 0` it becomes
`existenceRatio * 0.7 + perfectMatchRatio * 0.3`, gets `+0.1` when
`existenceRatio > 0.8`, and is raised to at least `0.6` when
`existenceRatio > 0.5`. -/
def multiConfidence (existingFiles perfectMatches totalFiles : Nat) : ℚ :=
  let existenceRatio : ℚ := (existingFiles : ℚ) / (totalFiles : ℚ)
  let perfectMatchRatio : ℚ :=
    if existingFiles > 0 then (perfectMatches : ℚ) / (existingFiles : ℚ) else 0
  if existingFiles > 0 then
    let c := existenceRatio * 0.7 + perfectMatchRatio * 0.3
    let c := if existenceRatio > 0.8 then c + 0.1 else c
    if existenceRatio > 0.5 then max c 0.6 else c
  else 0

/-- `validateMultiFileStructure` (part_000:268-383).  `none` models the
`null` returns for a missing or non-directory base path; the returned
record's own `debug` field is the empty array, exactly as in the source
(line 381). -/
def validateMultiFileStructure (fs : FS) (basePath : String)
    (expectedFiles : List ExpectedFile) (debug : List String) :
    Option PathMatchResult × List String :=
  let debug := debug ++ ["Validating multi-file structure at: " ++ basePath]
  match statSync fs basePath with
  | none => (none, debug ++ ["Base path does not exist"])
  | some st =>
    if st.isDirectory then
      let filesToCheck := min expectedFiles.length 10
      let debug := debug ++
        ["Checking first " ++ toString filesToCheck ++ " files out of " ++
          toString expectedFiles.length ++ " total"]
      let loop := multiFileLoop fs basePath 0 expectedFiles
      let debug := debug ++ loop.log ++
        ["Results: " ++ toString loop.existingFiles ++ "/" ++
          toString expectedFiles.length ++ " files exist, " ++
          toString loop.perfectMatches ++ " perfect matches"]
      let totalFiles := expectedFiles.length
      let confidence := multiConfidence loop.existingFiles loop.perfectMatches totalFiles
      let debug := debug ++ ["Calculated confidence"]
      (some { basePath := basePath
              confidence := confidence
              matches' := loop.matches'
              totalFiles := totalFiles
              existingFiles := loop.existingFiles
              debug := [] },
       debug)
    else (none, debug ++ ["Base path is not a directory"])

/-- The candidate record pushed for a successful single-file validation
(part_000:100-107 and 122-129): `totalFiles: 1`,
`existingFiles: result.match.exists ? 1 : 0`, `debug: [...debug]`. -/
def singlePush (basePath : String) (res : ℚ × FileMatch) (debug : List String) :
    PathMatchResult :=
  { basePath := basePath
    confidence := res.1
    matches' := [res.2]
    totalFiles := 1
    existingFiles := if res.2.exists' then 1 else 0
    debug := debug }

/-- One iteration of the multi-file structure loop of
`findCorrectTorrentPath` (part_000:155-174): validate one test path and push
a candidate when the result is non-null with positive confidence. -/
def testMultiStructure (fs : FS) (basePath testPath description : String)
    (expectedFiles : List ExpectedFile) (debug : List String) :
    List PathMatchResult × List String :=
  let debug := debug ++
    ["Testing multi-file structure: " ++ description ++ " at " ++ testPath]
  let out := validateMultiFileStructure fs testPath expectedFiles debug
  match out.1 with
  | some result =>
    if result.confidence > 0 then
      let debug := out.2 ++
        ["Found candidate with confidence: " ++ toString result.confidence]
      ([{ result with basePath := basePath, debug := debug }], debug)
    else ([], out.2)
  | none => ([], out.2)

/-- The body of the base-path loop of `findCorrectTorrentPath`
(part_000:74-175) for the `i`-th candidate base path.  In single-file mode
the source reads `expectedFiles[0]`; a single-file manifest always has
exactly one entry, and the model uses `headI`. -/
def processBasePath (fs : FS) (isSingleFile : Bool) (torrentName : String)
    (expectedFiles : List ExpectedFile) (i : Nat) (basePath : String)
    (debug : List String) : List PathMatchResult × List String :=
  let debug := debug ++ ["Testing path " ++ toString (i + 1) ++ ": " ++ basePath]
  match statSync fs basePath with
  | none => ([], debug ++ ["Path does not exist, skipping"])
  | some st =>
    let debug := debug ++
      ["Path exists, is directory: " ++ toString st.isDirectory ++
        ", is file: " ++ toString st.isFile]
    if isSingleFile then
      let debug := debug ++ ["Checking as single-file torrent"]
      let afterFile :=
        if st.isFile then
          let out := validateSingleFile fs basePath expectedFiles.headI debug
          match out.1 with
          | some res => ([singlePush basePath res out.2], out.2)
          | none => ([], out.2)
        else ([], debug)
      let afterDir :=
        if st.isDirectory then
          let filePath := pathJoin basePath torrentName
          let debug := afterFile.2 ++ ["Checking for file at: " ++ filePath]
          if existsSync fs filePath then
            let out := validateSingleFile fs filePath expectedFiles.headI debug
            match out.1 with
            | some res => ([singlePush basePath res out.2], out.2)
            | none => ([], out.2)
          else ([], debug ++ ["File not found at expected location"])
        else ([], afterFile.2)
      (afterFile.1 ++ afterDir.1, afterDir.2)
    else
      if st.isDirectory then
        let t1 := testMultiStructure fs basePath (pathJoin basePath torrentName)
          "with torrent name folder" expectedFiles debug
        let t2 := testMultiStructure fs basePath basePath
          "direct in base path" expectedFiles t1.2
        (t1.1 ++ t2.1, t2.2)
      else ([], debug ++ ["Not a directory, skipping for multi-file torrent"])

/-- The `for` loop over candidate base paths (part_000:74-175), accumulating
pushed candidates left to right. -/
def scanPaths (fs : FS) (isSingleFile : Bool) (torrentName : String)
    (expectedFiles : List ExpectedFile) :
    Nat → List String → List String → List PathMatchResult × List String
  | _, [], debug => ([], debug)
  | i, basePath :: rest, debug =>
    let out := processBasePath fs isSingleFile torrentName expectedFiles i basePath debug
    let restOut := scanPaths fs isSingleFile torrentName expectedFiles (i + 1) rest out.2
    (out.1 ++ restOut.1, restOut.2)

/-- The debug preamble of `findCorrectTorrentPath` (part_000:55-69). -/
def initialDebug (torrentData : TorrentData) (filePaths : List String) : List String :=
  ["Starting analysis with " ++ toString filePaths.length ++ " possible paths",
   "Torrent name: " ++ torrentData.info.name,
   "Is single file: " ++ toString torrentData.info.files.isNone,
   "Expected files count: " ++ toString (getExpectedFiles torrentData).length] ++
  ((getExpectedFiles torrentData).take 3).enum.map (fun p =>
    "Expected file " ++ toString p.1 ++ ": " ++ p.2.path ++
      " (" ++ toString p.2.size ++ " bytes)")

/-- The `candidates` array of `findCorrectTorrentPath` (part_000:71-175) in
evaluation order: left to right over base paths, then hypotheses within one
base path. -/
def candidatesOf (fs : FS) (torrentData : TorrentData) (filePaths : List String) :
    List PathMatchResult :=
  (scanPaths fs torrentData.info.files.isNone torrentData.info.name
    (getExpectedFiles torrentData) 0 filePaths (initialDebug torrentData filePaths)).1

/-- `candidates.reduce((best, current) => current.confidence > best.confidence
? current : best)` (part_000:184-186).  JavaScript `Array.prototype.reduce`
without an initial value throws a `TypeError` on an empty array; the thrown
error is modelled as `Except.error` with the runtime's message. -/
def pickBest (best current : PathMatchResult) : PathMatchResult :=
  if current.confidence > best.confidence then current else best

/-- The reduction over the candidate array (part_000:184-186), with
`pickBest` as the callback. -/
def reduceBestCandidate (candidates : List PathMatchResult) :
    Except String PathMatchResult :=
  match candidates with
  | [] => Except.error "Reduce of empty array with no initial value"
  | first :: rest => Except.ok (rest.foldl pickBest first)

/-- `findCorrectTorrentPath` (part_000:51-193).  The debug lines pushed after
the selection (lines 177-191) never reach the returned value and are
dropped. -/
def findCorrectTorrentPath (fs : FS) (torrentData : TorrentData)
    (filePaths : List String) : Except String PathMatchResult :=
  reduceBestCandidate (candidatesOf fs torrentData filePaths)

/-- Single-file scoring rule as the spec states it (spec section 4.4):
exact size match scores 1.0, a nonzero strictly smaller actual size scores
`0.5 + (actualSize / expectedSize) * 0.3`, anything else scores 0.2. -/
def specSingleFileConfidence (actualSize expectedSize : Nat) : ℚ :=
  if actualSize = expectedSize then 1
  else if 0 < actualSize ∧ actualSize < expectedSize then
    0.5 + ((actualSize : ℚ) / (expectedSize : ℚ)) * 0.3
  else 0.2

/-- Multi-file scoring rule as the spec states it (spec section 4.4), for a
hypothesis with `existingCount > 0`: `existenceRatio * 0.7 + perfectRatio *
0.3` with `perfectRatio = perfectMatchCount / existingCount`, a flat `+0.1`
bonus when `existenceRatio > 0.8`, then raised to at least `0.6` when
`existenceRatio > 0.5`. -/
def specMultiFileConfidence (existingCount perfectMatchCount totalEntries : Nat) : ℚ :=
  let exRatio : ℚ := (existingCount : ℚ) / (totalEntries : ℚ)
  let pRatio : ℚ := (perfectMatchCount : ℚ) / (existingCount : ℚ)
  let base := exRatio * 0.7 + pRatio * 0.3
  let withBonus := if exRatio > 0.8 then base + 0.1 else base
  if exRatio > 0.5 then max withBonus 0.6 else withBonus

/-- The evidence the validator records for one manifest entry, as a function
of the stat outcome at `root/relativePath`. -/
def entryMatch (fs : FS) (basePath : String) (e : ExpectedFile) : FileMatch :=
  match statSync fs (pathJoin basePath e.path) with
  | some st =>
    { expectedPath := e.path
      actualPath := pathJoin basePath e.path
      exists' := true
      expectedSize := e.size
      actualSize := st.size
      sizeMatch := st.size == e.size }
  | none =>
    { expectedPath := e.path
      actualPath := pathJoin basePath e.path
      exists' := false
      expectedSize := e.size
      actualSize := 0
      sizeMatch := false }

/-- Closed form of the record `validateMultiFileStructure` returns for a
directory base path. -/
def mkMultiResult (fs : FS) (basePath : String) (es : List ExpectedFile) :
    PathMatchResult :=
  { basePath := basePath
    confidence := multiConfidence (multiFileLoop fs basePath 0 es).existingFiles
      (multiFileLoop fs basePath 0 es).perfectMatches es.length
    matches' := (multiFileLoop fs basePath 0 es).matches'
    totalFiles := es.length
    existingFiles := (multiFileLoop fs basePath 0 es).existingFiles
    debug := [] }

/-- Forget the diagnostic log of a candidate record. -/
def stripDebug (r : PathMatchResult) : PathMatchResult :=
  { r with debug := [] }

/-- The candidate list (modulo debug) produced by one single-file validation
outcome. -/
def singleCandidate (basePath : String) :
    Option (ℚ × FileMatch) → List PathMatchResult
  | some res =>
    [{ basePath := basePath
       confidence := res.1
       matches' := [res.2]
       totalFiles := 1
       existingFiles := if res.2.exists' then 1 else 0
       debug := [] }]
  | none => []

/-- The candidate list (modulo debug) produced by one multi-file validation
outcome for a given base path. -/
def multiCandidate (basePath : String) :
    Option PathMatchResult → List PathMatchResult
  | some r => if r.confidence > 0 then [{ r with basePath := basePath, debug := [] }] else []
  | none => []

/-- An empty filesystem. -/
def fsEmpty : FS := fun _ => none

/-- A single-file torrent descriptor: `movie.mkv`, 1000 bytes. -/
def tSingle : TorrentData :=
  { info := { name := "movie.mkv", files := none, length := some 1000 } }

/-- A filesystem with directory `/data` containing one 100-byte file `a`. -/
def fsMulti : FS := fun p =>
  if p = "/data" then some (FSNode.dir 4096)
  else if p = "/data/a" then some (FSNode.file 100)
  else none

/-- A filesystem with directory `/x` containing `movie.mkv` of 1000 bytes. -/
def fsSel : FS := fun p =>
  if p = "/x" then some (FSNode.dir 4096)
  else if p = "/x/movie.mkv" then some (FSNode.file 1000) else none

/-- A filesystem holding a 400-byte file where a 1000-byte one is expected. -/
def fsPart : FS := fun p =>
  if p = "/part/movie.mkv" then some (FSNode.file 400) else none

/-- A one-entry multi-file manifest fully present in `fsMulti`. -/
def esOne : List ExpectedFile := [{ path := "a", size := 100 }]

/-- A two-entry manifest of which only the first entry exists in `fsMulti`. -/
def esTwo : List ExpectedFile := [{ path := "a", size := 100 }, { path := "b", size := 70 }]

/-- The result `validateMultiFileStructure` computes for `fsMulti` with
`esOne`: everything exists and matches, giving the unclamped score 1.1. -/
def rAll : PathMatchResult :=
  { basePath := "/data"
    confidence := 11/10
    matches' := [⟨"a", "/data/a", true, 100, 100, true⟩]
    totalFiles := 1
    existingFiles := 1
    debug := [] }

/-- The result `validateMultiFileStructure` computes for `fsMulti` with
`esTwo`: one of two entries exists, perfectly matching. -/
def rHalf : PathMatchResult :=
  { basePath := "/data"
    confidence := 13/20
    matches' := [⟨"a", "/data/a", true, 100, 100, true⟩,
                 ⟨"b", "/data/b", false, 70, 0, false⟩]
    totalFiles := 2
    existingFiles := 1
    debug := [] }

/-- The sole candidate found for `tSingle` against `fsSel` with base path
`/x`. -/
def cSel : PathMatchResult := (candidatesOf fsSel tSingle ["/x"]).headI

theorem entryMatch_expectedPath (fs : FS) (bp : String) (e : ExpectedFile) :
    (entryMatch fs bp e).expectedPath = e.path := by
  unfold entryMatch
  cases statSync fs (pathJoin bp e.path) <;> rfl

theorem entryMatch_exists (fs : FS) (bp : String) (e : ExpectedFile) :
    (entryMatch fs bp e).exists' = (statSync fs (pathJoin bp e.path)).isSome := by
  unfold entryMatch
  cases statSync fs (pathJoin bp e.path) <;> rfl

theorem entryMatch_sizeMatch_exists (fs : FS) (bp : String) (e : ExpectedFile) :
    (entryMatch fs bp e).sizeMatch = true → (entryMatch fs bp e).exists' = true := by
  unfold entryMatch
  cases statSync fs (pathJoin bp e.path) <;> simp

theorem multiFileLoop_matches (fs : FS) (bp : String) :
    ∀ (i : Nat) (es : List ExpectedFile),
      (multiFileLoop fs bp i es).matches' = es.map (entryMatch fs bp) := by
  intro i es
  induction es generalizing i with
  | nil => rfl
  | cons e rest ih =>
    simp only [multiFileLoop, List.map_cons]
    cases h : statSync fs (pathJoin bp e.path) <;>
      simp [entryMatch, h, ih]

theorem multiFileLoop_existing (fs : FS) (bp : String) :
    ∀ (i : Nat) (es : List ExpectedFile),
      (multiFileLoop fs bp i es).existingFiles =
        es.countP (fun e => (entryMatch fs bp e).exists') := by
  intro i es
  induction es generalizing i with
  | nil => rfl
  | cons e rest ih =>
    simp only [multiFileLoop, List.countP_cons]
    cases h : statSync fs (pathJoin bp e.path) <;>
      simp [entryMatch, h, ih]

theorem multiFileLoop_perfect (fs : FS) (bp : String) :
    ∀ (i : Nat) (es : List ExpectedFile),
      (multiFileLoop fs bp i es).perfectMatches =
        es.countP (fun e => (entryMatch fs bp e).sizeMatch) := by
  intro i es
  induction es generalizing i with
  | nil => rfl
  | cons e rest ih =>
    simp only [multiFileLoop, List.countP_cons]
    cases h : statSync fs (pathJoin bp e.path) with
    | none => simp [entryMatch, h, ih]
    | some st =>
      cases hsz : st.size == e.size <;>
        simp [entryMatch, h, hsz, ih]

theorem validateMultiFileStructure_fst (fs : FS) (bp : String)
    (es : List ExpectedFile) (dbg : List String) :
    (validateMultiFileStructure fs bp es dbg).1 =
      (match fs bp with
       | some (FSNode.dir _) => some (mkMultiResult fs bp es)
       | some (FSNode.file _) => none
       | none => none) := by
  unfold validateMultiFileStructure mkMultiResult
  cases h : fs bp with
  | none => simp [statSync, h]
  | some st => cases st <;> simp [statSync, h, FSNode.isDirectory]

theorem validateMultiFileStructure_some (fs : FS) (bp : String)
    (es : List ExpectedFile) (dbg : List String) (r : PathMatchResult)
    (h : (validateMultiFileStructure fs bp es dbg).1 = some r) :
    r = mkMultiResult fs bp es := by
  rw [validateMultiFileStructure_fst] at h
  cases hfs : fs bp with
  | none => rw [hfs] at h; simp at h
  | some st =>
    cases st with
    | file s => rw [hfs] at h; simp at h
    | dir s => rw [hfs] at h; simp at h; exact h.symm

theorem validateSingleFile_fst_eq (fs : FS) (p : String) (e : ExpectedFile)
    (d : List String) :
    (validateSingleFile fs p e d).1 =
      (match fs p with
       | none => none
       | some st =>
         some (specSingleFileConfidence st.size e.size,
           ⟨e.path, p, true, e.size, st.size, st.size == e.size⟩)) := by
  unfold validateSingleFile specSingleFileConfidence
  cases h : fs p with
  | none => simp [statSync, h]
  | some st =>
    simp only [statSync, h]
    by_cases h1 : st.size = e.size
    · simp [h1]
    · by_cases h2 : st.size < e.size ∧ st.size > 0
      · have h2' : 0 < st.size ∧ st.size < e.size := ⟨h2.2, h2.1⟩
        simp [h1, h2, h2']
      · have h2' : ¬(0 < st.size ∧ st.size < e.size) := fun hc => h2 ⟨hc.2, hc.1⟩
        simp [h1, h2, h2']

theorem validateSingleFile_fst_dbg (fs : FS) (p : String) (e : ExpectedFile)
    (d d' : List String) :
    (validateSingleFile fs p e d).1 = (validateSingleFile fs p e d').1 := by
  rw [validateSingleFile_fst_eq, validateSingleFile_fst_eq]

theorem validateMultiFileStructure_fst_dbg (fs : FS) (p : String)
    (es : List ExpectedFile) (d d' : List String) :
    (validateMultiFileStructure fs p es d).1 =
      (validateMultiFileStructure fs p es d').1 := by
  rw [validateMultiFileStructure_fst, validateMultiFileStructure_fst]

theorem multiConfidence_pos_eq (ex pm total : Nat) (h : 0 < ex) :
    multiConfidence ex pm total = specMultiFileConfidence ex pm total := by
  unfold multiConfidence specMultiFileConfidence
  simp [h]

theorem multiConfidence_zero (pm total : Nat) :
    multiConfidence 0 pm total = 0 := by
  unfold multiConfidence
  simp

theorem specSingleFileConfidence_pos (a b : Nat) :
    0 < specSingleFileConfidence a b := by
  unfold specSingleFileConfidence
  split_ifs with h1 h2
  · norm_num
  · have hr : (0 : ℚ) ≤ (a : ℚ) / (b : ℚ) := by positivity
    have := mul_nonneg hr (show (0 : ℚ) ≤ 0.3 by norm_num)
    nlinarith
  · norm_num

theorem specSingleFileConfidence_partial (a b : Nat) (h0 : 0 < a) (hab : a < b) :
    0.5 < specSingleFileConfidence a b ∧ specSingleFileConfidence a b < 0.8 := by
  have hne : a ≠ b := Nat.ne_of_lt hab
  unfold specSingleFileConfidence
  rw [if_neg hne, if_pos ⟨h0, hab⟩]
  have hb : (0 : ℚ) < (b : ℚ) := by exact_mod_cast Nat.lt_of_lt_of_le h0 (le_of_lt hab)
  have hr0 : 0 < (a : ℚ) / (b : ℚ) := div_pos (by exact_mod_cast h0) hb
  have hr1 : (a : ℚ) / (b : ℚ) < 1 := (div_lt_one hb).mpr (by exact_mod_cast hab)
  constructor <;> nlinarith

theorem validateSingleFile_pos (fs : FS) (p : String) (e : ExpectedFile)
    (d : List String) (res : ℚ × FileMatch)
    (h : (validateSingleFile fs p e d).1 = some res) : 0 < res.1 := by
  rw [validateSingleFile_fst_eq] at h
  cases hp : fs p with
  | none => rw [hp] at h; simp at h
  | some st =>
    rw [hp] at h
    simp only [Option.some.injEq] at h
    subst h
    exact specSingleFileConfidence_pos st.size e.size

theorem testMultiStructure_strip (fs : FS) (bp tp desc : String)
    (es : List ExpectedFile) (d : List String) :
    (testMultiStructure fs bp tp desc es d).1.map stripDebug =
      multiCandidate bp ((validateMultiFileStructure fs tp es []).1) := by
  simp only [testMultiStructure]
  rw [validateMultiFileStructure_fst_dbg fs tp es _ []]
  cases hv : (validateMultiFileStructure fs tp es []).1 with
  | none => simp [multiCandidate]
  | some r =>
    by_cases hpos : r.confidence > 0
    · simp [multiCandidate, hpos, stripDebug]
    · simp [multiCandidate, hpos]

theorem processBasePath_single_strip (fs : FS) (name : String)
    (es : List ExpectedFile) (i : Nat) (bp : String) (d : List String) :
    (processBasePath fs true name es i bp d).1.map stripDebug =
      (match fs bp with
       | some (FSNode.file _) =>
         singleCandidate bp ((validateSingleFile fs bp es.headI []).1)
       | some (FSNode.dir _) =>
         if existsSync fs (pathJoin bp name) then
           singleCandidate bp ((validateSingleFile fs (pathJoin bp name) es.headI []).1)
         else []
       | none => []) := by
  simp only [processBasePath, statSync]
  cases hfs : fs bp with
  | none => simp [hfs]
  | some st =>
    simp only [hfs]
    cases st with
    | file s =>
      rw [validateSingleFile_fst_dbg fs bp es.headI _ []]
      cases hv : (validateSingleFile fs bp es.headI []).1 with
      | none => simp [FSNode.isFile, FSNode.isDirectory, hv, singleCandidate]
      | some res =>
        simp [FSNode.isFile, FSNode.isDirectory, hv, singleCandidate, singlePush,
          stripDebug]
    | dir s =>
      by_cases hex : existsSync fs (pathJoin bp name)
      · rw [validateSingleFile_fst_dbg fs (pathJoin bp name) es.headI _ []]
        cases hv : (validateSingleFile fs (pathJoin bp name) es.headI []).1 with
        | none => simp [FSNode.isFile, FSNode.isDirectory, hex, hv, singleCandidate]
        | some res =>
          simp [FSNode.isFile, FSNode.isDirectory, hex, hv, singleCandidate,
            singlePush, stripDebug]
      · simp [FSNode.isFile, FSNode.isDirectory, hex]

theorem processBasePath_multi_strip (fs : FS) (name : String)
    (es : List ExpectedFile) (i : Nat) (bp : String) (d : List String) :
    (processBasePath fs false name es i bp d).1.map stripDebug =
      (match fs bp with
       | some (FSNode.dir _) =>
         multiCandidate bp ((validateMultiFileStructure fs (pathJoin bp name) es []).1) ++
           multiCandidate bp ((validateMultiFileStructure fs bp es []).1)
       | some (FSNode.file _) => []
       | none => []) := by
  simp only [processBasePath, statSync]
  cases hfs : fs bp with
  | none => simp [hfs]
  | some st =>
    simp only [hfs]
    cases st with
    | file s => simp [FSNode.isDirectory]
    | dir s =>
      simp only [FSNode.isDirectory, Bool.false_eq_true, if_false, if_true,
        List.map_append]
      rw [testMultiStructure_strip, testMultiStructure_strip]

theorem singleCandidate_pos (fs : FS) (p : String) (e : ExpectedFile)
    (bp : String) (x : PathMatchResult)
    (h : x ∈ singleCandidate bp ((validateSingleFile fs p e []).1)) :
    0 < x.confidence := by
  cases hv : (validateSingleFile fs p e []).1 with
  | none => rw [hv] at h; simp [singleCandidate] at h
  | some res =>
    rw [hv] at h
    simp only [singleCandidate, List.mem_singleton] at h
    subst h
    exact validateSingleFile_pos fs p e [] res hv

theorem multiCandidate_pos (bp : String) (o : Option PathMatchResult)
    (x : PathMatchResult) (h : x ∈ multiCandidate bp o) : 0 < x.confidence := by
  cases o with
  | none => simp [multiCandidate] at h
  | some r =>
    by_cases hpos : r.confidence > 0
    · simp only [multiCandidate, if_pos hpos, List.mem_singleton] at h
      subst h
      exact hpos
    · simp [multiCandidate, hpos] at h

theorem stripDebug_confidence (c : PathMatchResult) :
    (stripDebug c).confidence = c.confidence := rfl

theorem processBasePath_pos (fs : FS) (single : Bool) (name : String)
    (es : List ExpectedFile) (i : Nat) (bp : String) (d : List String)
    (c : PathMatchResult) (h : c ∈ (processBasePath fs single name es i bp d).1) :
    0 < c.confidence := by
  have hmem := List.mem_map_of_mem stripDebug h
  rw [← stripDebug_confidence]
  cases single with
  | true =>
    rw [processBasePath_single_strip] at hmem
    cases hfs : fs bp with
    | none => rw [hfs] at hmem; simp at hmem
    | some st =>
      cases st with
      | file s =>
        rw [hfs] at hmem
        exact singleCandidate_pos fs bp es.headI bp _ hmem
      | dir s =>
        rw [hfs] at hmem
        by_cases hex : existsSync fs (pathJoin bp name)
        · rw [if_pos hex] at hmem
          exact singleCandidate_pos fs (pathJoin bp name) es.headI bp _ hmem
        · rw [if_neg hex] at hmem; simp at hmem
  | false =>
    rw [processBasePath_multi_strip] at hmem
    cases hfs : fs bp with
    | none => rw [hfs] at hmem; simp at hmem
    | some st =>
      cases st with
      | file s => rw [hfs] at hmem; simp at hmem
      | dir s =>
        rw [hfs] at hmem
        rcases List.mem_append.mp hmem with hmem | hmem
        · exact multiCandidate_pos bp _ _ hmem
        · exact multiCandidate_pos bp _ _ hmem

theorem scanPaths_pos (fs : FS) (single : Bool) (name : String)
    (es : List ExpectedFile) :
    ∀ (ps : List String) (i : Nat) (d : List String) (c : PathMatchResult),
      c ∈ (scanPaths fs single name es i ps d).1 → 0 < c.confidence := by
  intro ps
  induction ps with
  | nil => intro i d c h; simp [scanPaths] at h
  | cons p rest ih =>
    intro i d c h
    simp only [scanPaths, List.mem_append] at h
    rcases h with h | h
    · exact processBasePath_pos fs single name es i p d c h
    · exact ih (i + 1) _ c h

theorem candidatesOf_pos (fs : FS) (t : TorrentData) (ps : List String)
    (c : PathMatchResult) (h : c ∈ candidatesOf fs t ps) : 0 < c.confidence :=
  scanPaths_pos fs _ _ _ ps 0 _ c h

theorem foldl_pickBest_spec (l : List PathMatchResult) :
    ∀ b : PathMatchResult,
      (l.foldl pickBest b = b ∧ ∀ x ∈ l, x.confidence ≤ b.confidence) ∨
      ∃ pre post, l = pre ++ (l.foldl pickBest b) :: post ∧
        b.confidence < (l.foldl pickBest b).confidence ∧
        (∀ x ∈ pre, x.confidence < (l.foldl pickBest b).confidence) ∧
        (∀ x ∈ post, x.confidence ≤ (l.foldl pickBest b).confidence) := by
  induction l with
  | nil => intro b; left; exact ⟨rfl, by simp⟩
  | cons a t ih =>
    intro b
    rw [List.foldl_cons]
    by_cases hab : a.confidence > b.confidence
    · have hstep : pickBest b a = a := by simp [pickBest, hab]
      rw [hstep]
      rcases ih a with ⟨heq, hall⟩ | ⟨pre, post, hsplit, hlt, hpre, hpost⟩
      · right
        refine ⟨[], t, ?_, ?_, by simp, ?_⟩
        · rw [heq]; simp
        · rw [heq]; exact hab
        · intro x hx; rw [heq]; exact hall x hx
      · right
        refine ⟨a :: pre, post, ?_, lt_trans hab hlt, ?_, hpost⟩
        · rw [List.cons_append, ← hsplit]
        · intro x hx
          rcases List.mem_cons.mp hx with rfl | hx
          · exact hlt
          · exact hpre x hx
    · have hstep : pickBest b a = b := by simp [pickBest, hab]
      rw [hstep]
      have hab' : a.confidence ≤ b.confidence := le_of_not_lt hab
      rcases ih b with ⟨heq, hall⟩ | ⟨pre, post, hsplit, hlt, hpre, hpost⟩
      · left
        refine ⟨heq, ?_⟩
        intro x hx
        rcases List.mem_cons.mp hx with rfl | hx
        · exact hab'
        · exact hall x hx
      · right
        refine ⟨a :: pre, post, ?_, hlt, ?_, hpost⟩
        · rw [List.cons_append, ← hsplit]
        · intro x hx
          rcases List.mem_cons.mp hx with rfl | hx
          · exact lt_of_le_of_lt hab' hlt
          · exact hpre x hx

theorem rAll_eval :
    (validateMultiFileStructure fsMulti "/data" esOne []).1 = some rAll := by
  simp [validateMultiFileStructure, multiFileLoop, multiConfidence, fsMulti, esOne,
    rAll, statSync, pathJoin, FSNode.isDirectory, FSNode.size]
  norm_num

theorem rHalf_eval :
    (validateMultiFileStructure fsMulti "/data" esTwo []).1 = some rHalf := by
  simp [validateMultiFileStructure, multiFileLoop, multiConfidence, fsMulti, esTwo,
    rHalf, statSync, pathJoin, FSNode.isDirectory, FSNode.size]
  norm_num

theorem cSel_eval : candidatesOf fsSel tSingle ["/x"] = [cSel] := by
  simp [candidatesOf, scanPaths, processBasePath, validateSingleFile, singlePush,
    initialDebug, getExpectedFiles, fsSel, tSingle, cSel, statSync, pathJoin,
    existsSync, FSNode.isDirectory, FSNode.isFile, FSNode.size, List.headI]

/-- C1: the claim that every confidence produced by the scorer lies in
[0, 1] fails on the code: the multi-file scorer has no clamp, and for a
manifest whose entries all exist with matching sizes it computes
`1 * 0.7 + 1 * 0.3 + 0.1 = 1.1 > 1` (the spec itself flags the missing
clamp as a defect the reimplementation must fix). -/
theorem unclamped_confidence_exceeds_one :
    (validateMultiFileStructure fsMulti "/data" esOne []).1 = some rAll ∧
    1 < rAll.confidence :=
  ⟨rAll_eval, by norm_num [rAll]⟩

/-- C2: the claim that the selector returns an explicit no-match outcome on
an empty candidate set fails on the code: `candidates.reduce` is called
without an initial value, so an empty candidate set makes the function throw
a `TypeError` instead of returning (the spec itself calls this reduction "a
defect to correct"). -/
theorem empty_candidates_raises :
    candidatesOf fsEmpty tSingle [] = [] ∧
    findCorrectTorrentPath fsEmpty tSingle [] =
      Except.error "Reduce of empty array with no initial value" :=
  ⟨rfl, rfl⟩

/-- C3: a multi-file hypothesis result with `existingCount > 0` has
confidence `existenceRatio * 0.7 + perfectRatio * 0.3` (with `perfectRatio =
perfectMatchCount / existingCount`), plus a flat 0.1 bonus when
`existenceRatio > 0.8`, raised to at least 0.6 when `existenceRatio > 0.5` —
the rule written out in `specMultiFileConfidence`; a hypothesis with
`existingCount = 0` scores 0, and every member of the candidate set has
strictly positive confidence, so a zero-scored hypothesis is never in it. -/
theorem multiFile_scoring (fs : FS) (bp : String) (es : List ExpectedFile)
    (dbg : List String) (r : PathMatchResult) (fs2 : FS) (t2 : TorrentData)
    (paths2 : List String) (c2 : PathMatchResult)
    (h : (validateMultiFileStructure fs bp es dbg).1 = some r)
    (hmem : c2 ∈ candidatesOf fs2 t2 paths2) :
    (0 < r.existingFiles →
      r.confidence = specMultiFileConfidence r.existingFiles
        (r.matches'.countP (fun m => m.sizeMatch)) r.totalFiles) ∧
    (r.existingFiles = 0 → r.confidence = 0) ∧
    0 < c2.confidence := by
  have hr := validateMultiFileStructure_some fs bp es dbg r h
  subst hr
  refine ⟨?_, ?_, candidatesOf_pos fs2 t2 paths2 c2 hmem⟩
  · intro hex
    have hpm : (mkMultiResult fs bp es).matches'.countP (fun m => m.sizeMatch) =
        (multiFileLoop fs bp 0 es).perfectMatches := by
      show (multiFileLoop fs bp 0 es).matches'.countP (fun m => m.sizeMatch) = _
      rw [multiFileLoop_matches, List.countP_map, multiFileLoop_perfect]
      rfl
    rw [hpm]
    exact multiConfidence_pos_eq _ _ _ hex
  · intro hex
    show multiConfidence (multiFileLoop fs bp 0 es).existingFiles
      (multiFileLoop fs bp 0 es).perfectMatches es.length = 0
    have h0 : (multiFileLoop fs bp 0 es).existingFiles = 0 := hex
    rw [h0, multiConfidence_zero]

/-- C3 witness: for the fully present one-entry manifest the rule holds
(with the computed confidence 1.1), and the concrete candidate found for
`tSingle` has positive confidence. -/
theorem multiFile_scoring_witness :
    rAll.confidence = specMultiFileConfidence rAll.existingFiles
      (rAll.matches'.countP (fun m => m.sizeMatch)) rAll.totalFiles ∧
    0 < cSel.confidence := by
  have h := multiFile_scoring fsMulti "/data" esOne [] rAll fsSel tSingle ["/x"]
    cSel rAll_eval (by rw [cSel_eval]; exact List.mem_singleton_self _)
  exact ⟨h.1 (by decide), h.2.2⟩

/-- C4: for a single-file hypothesis whose path exists, the returned
confidence is exactly `specSingleFileConfidence actualSize expectedSize`:
1.0 on an exact size match; `0.5 + (actualSize/expectedSize) * 0.3`, lying
strictly between 0.5 and 0.8, when `0 < actualSize < expectedSize`; and 0.2
in every other case.  When the path does not exist (the stat throws), no
result is produced at all. -/
theorem singleFile_scoring (fs : FS) (filePath : String) (e : ExpectedFile)
    (dbg : List String) :
    (match fs filePath with
     | some st =>
       ((validateSingleFile fs filePath e dbg).1 =
           some (specSingleFileConfidence st.size e.size,
             ⟨e.path, filePath, true, e.size, st.size, st.size == e.size⟩)) ∧
         (st.size = e.size → specSingleFileConfidence st.size e.size = 1) ∧
         (0 < st.size → st.size < e.size →
           specSingleFileConfidence st.size e.size =
             0.5 + ((st.size : ℚ) / (e.size : ℚ)) * 0.3 ∧
           0.5 < specSingleFileConfidence st.size e.size ∧
           specSingleFileConfidence st.size e.size < 0.8) ∧
         (st.size ≠ e.size → ¬(0 < st.size ∧ st.size < e.size) →
           specSingleFileConfidence st.size e.size = 0.2)
     | none => (validateSingleFile fs filePath e dbg).1 = none) := by
  cases hfs : fs filePath with
  | none => rw [validateSingleFile_fst_eq, hfs]
  | some st =>
    refine ⟨?_, ?_, ?_, ?_⟩
    · rw [validateSingleFile_fst_eq, hfs]
    · intro h1
      unfold specSingleFileConfidence
      rw [if_pos h1]
    · intro h0 hlt
      refine ⟨?_, specSingleFileConfidence_partial st.size e.size h0 hlt⟩
      unfold specSingleFileConfidence
      rw [if_neg (Nat.ne_of_lt hlt), if_pos ⟨h0, hlt⟩]
    · intro h1 h2
      unfold specSingleFileConfidence
      rw [if_neg h1, if_neg h2]

/-- C4 witness: a 400-byte file where 1000 bytes are expected scores
`0.5 + 0.4 * 0.3 = 0.62`, strictly between 0.5 and 0.8. -/
theorem singleFile_scoring_witness :
    ((validateSingleFile fsPart "/part/movie.mkv" ⟨"movie.mkv", 1000⟩ []).1 =
      some (specSingleFileConfidence 400 1000,
        ⟨"movie.mkv", "/part/movie.mkv", true, 1000, 400, (400 == 1000)⟩)) ∧
    specSingleFileConfidence 400 1000 = 0.5 + ((400 : ℚ) / (1000 : ℚ)) * 0.3 ∧
    0.5 < specSingleFileConfidence 400 1000 ∧
    specSingleFileConfidence 400 1000 < 0.8 := by
  have h := singleFile_scoring fsPart "/part/movie.mkv" ⟨"movie.mkv", 1000⟩ []
  rw [show fsPart "/part/movie.mkv" = some (FSNode.file 400) from rfl] at h
  exact ⟨h.1, h.2.2.1 (by decide) (by decide)⟩

/-- C5: for a non-empty candidate collection the selector returns a result
`r` that is maximal in confidence over the whole collection, and is the
first such result in evaluation order: the candidate list (built left to
right over base paths, then hypotheses within a base path) splits as
`pre ++ r :: post` with every element of `pre` strictly below `r`. -/
theorem selector_first_max (fs : FS) (t : TorrentData) (paths : List String)
    (c : PathMatchResult) (l : List PathMatchResult)
    (h : candidatesOf fs t paths = c :: l) :
    ∃ r, findCorrectTorrentPath fs t paths = Except.ok r ∧
      (∀ x ∈ candidatesOf fs t paths, x.confidence ≤ r.confidence) ∧
      ∃ pre post, candidatesOf fs t paths = pre ++ r :: post ∧
        ∀ x ∈ pre, x.confidence < r.confidence := by
  unfold findCorrectTorrentPath reduceBestCandidate
  rw [h]
  refine ⟨l.foldl pickBest c, rfl, ?_, ?_⟩
  · rcases foldl_pickBest_spec l c with ⟨heq, hall⟩ | ⟨pre, post, hsplit, hlt, hpre, hpost⟩
    · intro x hx
      rcases List.mem_cons.mp hx with rfl | hx
      · rw [heq]
      · rw [heq]; exact hall x hx
    · intro x hx
      rcases List.mem_cons.mp hx with rfl | hx
      · exact le_of_lt hlt
      · rw [hsplit] at hx
        rcases List.mem_append.mp hx with hx | hx
        · exact le_of_lt (hpre x hx)
        · rcases List.mem_cons.mp hx with rfl | hx
          · exact le_refl _
          · exact hpost x hx
  · rcases foldl_pickBest_spec l c with ⟨heq, hall⟩ | ⟨pre, post, hsplit, hlt, hpre, hpost⟩
    · exact ⟨[], l, by rw [heq]; simp, by simp⟩
    · refine ⟨c :: pre, post, ?_, ?_⟩
      · rw [List.cons_append, ← hsplit]
      · intro x hx
        rcases List.mem_cons.mp hx with rfl | hx
        · exact hlt
        · exact hpre x hx

/-- C5 witness: against `fsSel` the one-candidate scan selects exactly the
candidate `cSel`. -/
theorem selector_first_max_witness :
    findCorrectTorrentPath fsSel tSingle ["/x"] = Except.ok cSel := by
  obtain ⟨r, hr, hmax, pre, post, hsplit, hpre⟩ :=
    selector_first_max fsSel tSingle ["/x"] cSel [] cSel_eval
  have hcs : candidatesOf fsSel tSingle ["/x"] = [cSel] := cSel_eval
  rw [hcs] at hsplit
  cases pre with
  | nil =>
    simp only [List.nil_append] at hsplit
    rw [hr]
    rw [List.cons.injEq] at hsplit
    rw [hsplit.1]
  | cons a pre' => simp at hsplit

/-- C6: for every returned multi-file result the evidence covers the whole
manifest: there is exactly one `FileMatch` per entry in manifest order,
`existingFiles` counts the entries of the whole list whose stat succeeds,
`perfectMatches` counts the entries whose actual size equals the expected
one, and the loop position `i` (which only drives the `i < 5` / first-10
debug sampling) has no effect on matches or counters. -/
theorem multiFile_full_iteration (fs : FS) (bp : String) (es : List ExpectedFile)
    (dbg : List String) (r : PathMatchResult) (i j : Nat)
    (h : (validateMultiFileStructure fs bp es dbg).1 = some r) :
    r.matches'.length = es.length ∧
    r.matches'.map (fun m => m.expectedPath) = es.map (fun e => e.path) ∧
    r.existingFiles = es.countP (fun e => (statSync fs (pathJoin bp e.path)).isSome) ∧
    (multiFileLoop fs bp 0 es).perfectMatches =
      es.countP (fun e => (entryMatch fs bp e).sizeMatch) ∧
    (multiFileLoop fs bp i es).matches' = (multiFileLoop fs bp j es).matches' ∧
    (multiFileLoop fs bp i es).existingFiles = (multiFileLoop fs bp j es).existingFiles ∧
    (multiFileLoop fs bp i es).perfectMatches = (multiFileLoop fs bp j es).perfectMatches := by
  have hr := validateMultiFileStructure_some fs bp es dbg r h
  subst hr
  refine ⟨?_, ?_, ?_, multiFileLoop_perfect fs bp 0 es, ?_, ?_, ?_⟩
  · show (multiFileLoop fs bp 0 es).matches'.length = es.length
    rw [multiFileLoop_matches, List.length_map]
  · show ((multiFileLoop fs bp 0 es).matches').map _ = _
    rw [multiFileLoop_matches, List.map_map]
    exact List.map_congr_left (fun e he => entryMatch_expectedPath fs bp e)
  · show (multiFileLoop fs bp 0 es).existingFiles = _
    rw [multiFileLoop_existing]
    exact List.countP_congr (fun e he => by rw [entryMatch_exists])
  · rw [multiFileLoop_matches, multiFileLoop_matches]
  · rw [multiFileLoop_existing, multiFileLoop_existing]
  · rw [multiFileLoop_perfect, multiFileLoop_perfect]

/-- C6 witness: for the two-entry manifest `esTwo` (one entry present, one
absent) the full-iteration properties hold concretely, with loop positions
0 and 7 agreeing. -/
theorem multiFile_full_iteration_witness :
    rHalf.matches'.length = esTwo.length ∧
    rHalf.matches'.map (fun m => m.expectedPath) = esTwo.map (fun e => e.path) ∧
    rHalf.existingFiles =
      esTwo.countP (fun e => (statSync fsMulti (pathJoin "/data" e.path)).isSome) ∧
    (multiFileLoop fsMulti "/data" 0 esTwo).perfectMatches =
      esTwo.countP (fun e => (entryMatch fsMulti "/data" e).sizeMatch) ∧
    (multiFileLoop fsMulti "/data" 0 esTwo).matches' =
      (multiFileLoop fsMulti "/data" 7 esTwo).matches' ∧
    (multiFileLoop fsMulti "/data" 0 esTwo).existingFiles =
      (multiFileLoop fsMulti "/data" 7 esTwo).existingFiles ∧
    (multiFileLoop fsMulti "/data" 0 esTwo).perfectMatches =
      (multiFileLoop fsMulti "/data" 7 esTwo).perfectMatches :=
  multiFile_full_iteration fsMulti "/data" esTwo [] rHalf 0 7 rHalf_eval

/-- C7: the multi-file validator absorbs stat failures as evidence: each
entry's `FileMatch` records `exists=true`, the actual size and the size
comparison when the stat succeeds, and `exists=false, actualSize=0,
sizeMatch=false` when it fails; the validator is a total function, so no
exception escapes it. -/
theorem multiFile_stat_absorbed (fs : FS) (bp : String) (es : List ExpectedFile)
    (dbg : List String) (r : PathMatchResult)
    (h : (validateMultiFileStructure fs bp es dbg).1 = some r) :
    r.matches' = es.map (fun e =>
      match statSync fs (pathJoin bp e.path) with
      | some st =>
        (⟨e.path, pathJoin bp e.path, true, e.size, st.size, st.size == e.size⟩ : FileMatch)
      | none => ⟨e.path, pathJoin bp e.path, false, e.size, 0, false⟩) := by
  have hr := validateMultiFileStructure_some fs bp es dbg r h
  subst hr
  show (multiFileLoop fs bp 0 es).matches' = _
  rw [multiFileLoop_matches]
  exact List.map_congr_left (fun e he => by unfold entryMatch; rfl)

/-- C7 witness: concretely for `esTwo` against `fsMulti`, where the first
entry stats successfully and the second does not. -/
theorem multiFile_stat_absorbed_witness :
    rHalf.matches' = esTwo.map (fun e =>
      match statSync fsMulti (pathJoin "/data" e.path) with
      | some st =>
        (⟨e.path, pathJoin "/data" e.path, true, e.size, st.size, st.size == e.size⟩ : FileMatch)
      | none => ⟨e.path, pathJoin "/data" e.path, false, e.size, 0, false⟩) :=
  multiFile_stat_absorbed fsMulti "/data" esTwo [] rHalf rHalf_eval

/-- C8: per candidate base path, in single-file mode the path itself is
validated only when it is a regular file and the directly contained
`basePath/name` is validated only when the path is a directory (and that
inner path exists); in multi-file mode a non-directory candidate yields no
hypotheses, and a directory candidate yields exactly the two hypotheses
rooted at `basePath/name` and `basePath`, in that order.  Candidate lists
are compared modulo their diagnostic-log field. -/
theorem hypothesizer_modes (fs : FS) (name : String) (es : List ExpectedFile)
    (i : Nat) (bp : String) (d : List String) :
    ((processBasePath fs true name es i bp d).1.map stripDebug =
      (match fs bp with
       | some (FSNode.file _) =>
         singleCandidate bp ((validateSingleFile fs bp es.headI []).1)
       | some (FSNode.dir _) =>
         if existsSync fs (pathJoin bp name) then
           singleCandidate bp ((validateSingleFile fs (pathJoin bp name) es.headI []).1)
         else []
       | none => [])) ∧
    ((processBasePath fs false name es i bp d).1.map stripDebug =
      (match fs bp with
       | some (FSNode.dir _) =>
         multiCandidate bp ((validateMultiFileStructure fs (pathJoin bp name) es []).1) ++
           multiCandidate bp ((validateMultiFileStructure fs bp es []).1)
       | some (FSNode.file _) => []
       | none => [])) :=
  ⟨processBasePath_single_strip fs name es i bp d,
   processBasePath_multi_strip fs name es i bp d⟩

/-- C9: the manifest builder emits, in multi-file mode, one entry per
descriptor file in order, with the path segments joined by `/` and the
declared length; in single-file mode, exactly one entry whose path is
`info.name` and whose size is `info.length` defaulting to 0. -/
theorem manifest_builder (t : TorrentData) :
    (∀ fl, t.info.files = some fl →
      (getExpectedFiles t).length = fl.length ∧
      ∀ (k : Nat) (hk : k < (getExpectedFiles t).length) (hk' : k < fl.length),
        ((getExpectedFiles t).get ⟨k, hk⟩).path =
          String.intercalate "/" ((fl.get ⟨k, hk'⟩).path) ∧
        ((getExpectedFiles t).get ⟨k, hk⟩).size = (fl.get ⟨k, hk'⟩).length) ∧
    (t.info.files = none →
      getExpectedFiles t = [{ path := t.info.name, size := t.info.length.getD 0 }]) := by
  constructor
  · intro fl hfl
    have hg : getExpectedFiles t =
        fl.map (fun f => { path := String.intercalate "/" f.path, size := f.length }) := by
      unfold getExpectedFiles
      rw [hfl]
    constructor
    · rw [hg, List.length_map]
    · intro k hk hk'
      constructor <;> simp [hg, List.get_eq_getElem, List.getElem_map]
  · intro hfl
    unfold getExpectedFiles
    rw [hfl]

/-- C9 witness: the single-file descriptor `tSingle` yields exactly one
entry named after the torrent with its declared length. -/
theorem manifest_builder_witness :
    getExpectedFiles tSingle = [{ path := "movie.mkv", size := 1000 }] :=
  (manifest_builder tSingle).2 rfl

/-- C10: every `FileMatch` with `sizeMatch = true` also has `exists = true`;
in every multi-file result `perfectMatchCount ≤ existingCount ≤ totalFiles`,
and whenever the scorer uses the ratios (`existingCount > 0`) both
`existenceRatio` and `perfectRatio` lie in [0, 1]. -/
theorem evidence_invariants (fs : FS) (bp : String) (es : List ExpectedFile)
    (dbg : List String) (r : PathMatchResult)
    (h : (validateMultiFileStructure fs bp es dbg).1 = some r) :
    (∀ m ∈ r.matches', m.sizeMatch = true → m.exists' = true) ∧
    r.matches'.countP (fun m => m.sizeMatch) ≤ r.existingFiles ∧
    r.existingFiles ≤ r.totalFiles ∧
    (0 < r.existingFiles →
      (0 ≤ (r.existingFiles : ℚ) / (r.totalFiles : ℚ) ∧
        (r.existingFiles : ℚ) / (r.totalFiles : ℚ) ≤ 1) ∧
      (0 ≤ (r.matches'.countP (fun m => m.sizeMatch) : ℚ) / (r.existingFiles : ℚ) ∧
        (r.matches'.countP (fun m => m.sizeMatch) : ℚ) / (r.existingFiles : ℚ) ≤ 1)) := by
  have hr := validateMultiFileStructure_some fs bp es dbg r h
  subst hr
  have hm : (mkMultiResult fs bp es).matches' = es.map (entryMatch fs bp) :=
    multiFileLoop_matches fs bp 0 es
  have hpm : (mkMultiResult fs bp es).matches'.countP (fun m => m.sizeMatch) =
      es.countP (fun e => (entryMatch fs bp e).sizeMatch) := by
    rw [hm, List.countP_map]
    rfl
  have hexx : (mkMultiResult fs bp es).existingFiles =
      es.countP (fun e => (entryMatch fs bp e).exists') :=
    multiFileLoop_existing fs bp 0 es
  have htot : (mkMultiResult fs bp es).totalFiles = es.length := rfl
  have hle1 : (mkMultiResult fs bp es).matches'.countP (fun m => m.sizeMatch) ≤
      (mkMultiResult fs bp es).existingFiles := by
    rw [hpm, hexx]
    exact List.countP_mono_left (fun e he => entryMatch_sizeMatch_exists fs bp e)
  have hle2 : (mkMultiResult fs bp es).existingFiles ≤
      (mkMultiResult fs bp es).totalFiles := by
    rw [hexx, htot]
    exact List.countP_le_length _
  refine ⟨?_, hle1, hle2, ?_⟩
  · intro m hmem hsz
    rw [hm] at hmem
    rcases List.mem_map.mp hmem with ⟨e, he, rfl⟩
    exact entryMatch_sizeMatch_exists fs bp e hsz
  · intro hex
    have htotpos : 0 < (mkMultiResult fs bp es).totalFiles := lt_of_lt_of_le hex hle2
    have hq1 : (0 : ℚ) < ((mkMultiResult fs bp es).totalFiles : ℚ) := by
      exact_mod_cast htotpos
    have hq2 : (0 : ℚ) < ((mkMultiResult fs bp es).existingFiles : ℚ) := by
      exact_mod_cast hex
    refine ⟨⟨by positivity, ?_⟩, ⟨by positivity, ?_⟩⟩
    · rw [div_le_one hq1]
      exact_mod_cast hle2
    · rw [div_le_one hq2]
      exact_mod_cast hle1

/-- C10 witness: the invariants hold concretely for `rHalf` (one of two
entries exists), whose ratios are 1/2 and 1. -/
theorem evidence_invariants_witness :
    rHalf.matches'.countP (fun m => m.sizeMatch) ≤ rHalf.existingFiles ∧
    rHalf.existingFiles ≤ rHalf.totalFiles ∧
    ((0 ≤ (rHalf.existingFiles : ℚ) / (rHalf.totalFiles : ℚ) ∧
      (rHalf.existingFiles : ℚ) / (rHalf.totalFiles : ℚ) ≤ 1) ∧
     (0 ≤ (rHalf.matches'.countP (fun m => m.sizeMatch) : ℚ) / (rHalf.existingFiles : ℚ) ∧
      (rHalf.matches'.countP (fun m => m.sizeMatch) : ℚ) / (rHalf.existingFiles : ℚ) ≤ 1)) := by
  have h := evidence_invariants fsMulti "/data" esTwo [] rHalf rHalf_eval
  exact ⟨h.2.1, h.2.2.1, h.2.2.2 (by decide)⟩

end QbtMigrator
